import Mathlib

/-
Verification of the changelog-reduction, business-time, alerting and startup
logic of `jira_metrics_exporter.py` against its specification.

The embedding models the inner loop of `metrics_collection_loop` (the
per-issue changelog reduction, lines 215-233 of the source), the timestamp
parser `parse_jira_date`, the business-hours calculator
`business_hours_between`, the comment-alert deduplication (lines 280-293),
the one-try-per-cycle error structure (lines 179-300), `send_alert`,
`build_user_map_once` and the startup user-count check.

Conventions:
  - timestamps of already-parsed events are modelled as `Nat` instants;
  - Python dates are modelled as ordinal day numbers with day 0 a Monday,
    so Python `weekday() < 5` becomes `day % 7 < 5`;
  - Python dicts keyed by strings are association lists with first-match
    lookup and in-place replacement, mirroring dict insertion-order update.
-/

/-- A status change item together with the timestamp of the enclosing
changelog history entry.  `fromState`/`toState` embed the source fields
`item.fromString`/`item.toString`; `created` embeds `history.created`
(already parsed, as a `Nat` instant).  Iterating the nested loops
`for history in histories: for item in history.items` in source order is
iterating this flattened list in order. -/
structure ChangeEvent where
  field : String
  fromState : String
  toState : String
  created : Nat
deriving DecidableEq

/-- The per-issue accumulator of the reduction at source lines 215-233:
`in_progress_time, ready_for_prod_time, rework_events = None, None, 0`.
Generic in the timestamp type so the same shape serves parsed (`Nat`)
and raw (`JDateTime`) runs. -/
structure ReduceState (T : Type) where
  in_progress_time : Option T
  ready_for_prod_time : Option T
  rework_events : Nat
deriving DecidableEq

/-- One step of the changelog reduction, source lines 219-226.  The three
sequential `if`s of the source are kept in order: the start check assigns
`in_progress_time` unconditionally, the end check is guarded by
`not ready_for_prod_time` (Python falsiness of `None`), the rework check
increments the counter.  The concrete status literals of the source
(`"In Progress"`, `"IN PROGRESS D"`, `["TEST", "In Progress C"]`) are
abstracted into the parameters `ss`, `es`, `rf`, `rt`. -/
def reduce_step (ss es rf : List String) (rt : String)
    (st : ReduceState Nat) (e : ChangeEvent) : ReduceState Nat :=
  if e.field == "status" then
    let st1 := if ss.contains e.toState then
        { st with in_progress_time := some e.created } else st
    let st2 := if es.contains e.toState && st1.ready_for_prod_time.isNone then
        { st1 with ready_for_prod_time := some e.created } else st1
    if rf.contains e.fromState && e.toState == rt then
      { st2 with rework_events := st2.rework_events + 1 } else st2
  else st

/-- The changelog reduction of source lines 215-233: fold `reduce_step`
over the events in source order starting from `(None, None, 0)`. -/
def reduce (ss es rf : List String) (rt : String)
    (events : List ChangeEvent) : ReduceState Nat :=
  events.foldl (reduce_step ss es rf rt) ⟨none, none, 0⟩

/-- Modelled from the spec: insertion of an event into a
timestamp-ascending list, used to state the spec's "normalizes event
order to chronological ascending" reference reduction (no sorting exists
in the source; this definition follows the spec's words only). -/
def insertByCreated (e : ChangeEvent) : List ChangeEvent → List ChangeEvent
  | [] => [e]
  | x :: xs => if e.created ≤ x.created then e :: x :: xs
               else x :: insertByCreated e xs

/-- Modelled from the spec: chronological-ascending normalization of an
event list (spec 4.2 "Normalizes event order to chronological ascending").
Follows the spec's words; the source performs no sorting. -/
def sortByCreated : List ChangeEvent → List ChangeEvent
  | [] => []
  | x :: xs => insertByCreated x (sortByCreated xs)

/-- Modelled from the spec: "`startTime` = timestamp of the FIRST event
whose to-state ∈ startStates", read over the chronologically normalized
sequence.  Reference definition for comparison with `reduce`. -/
def spec_startTime (ss : List String) (evs : List ChangeEvent) : Option Nat :=
  ((sortByCreated evs).find?
    (fun e => e.field == "status" && ss.contains e.toState)).map (·.created)

/-- Modelled from the spec: "`endTime` = timestamp of the FIRST event
after `startTime` whose to-state ∈ endStates", the search starting only
once `startTime` exists.  Reference definition for comparison with
`reduce`. -/
def spec_endTime (ss es : List String) (evs : List ChangeEvent) : Option Nat :=
  match spec_startTime ss evs with
  | none => none
  | some t =>
    ((sortByCreated evs).find?
      (fun e => e.field == "status" && es.contains e.toState
                && decide (t < e.created))).map (·.created)

/-- Start-state match predicate of the reduction (source line 221). -/
def isStartEvent (ss : List String) (e : ChangeEvent) : Bool :=
  e.field == "status" && ss.contains e.toState

/-- End-state match predicate of the reduction (source line 223). -/
def isEndEvent (es : List String) (e : ChangeEvent) : Bool :=
  e.field == "status" && es.contains e.toState

/-- Rework match predicate of the reduction (source line 225). -/
def isReworkEvent (rf : List String) (rt : String) (e : ChangeEvent) : Bool :=
  e.field == "status" && (rf.contains e.fromState && e.toState == rt)

theorem reduce_step_in_progress (ss es rf : List String) (rt : String)
    (st : ReduceState Nat) (e : ChangeEvent) :
    (reduce_step ss es rf rt st e).in_progress_time =
      if isStartEvent ss e then some e.created else st.in_progress_time := by
  unfold reduce_step isStartEvent
  cases hf : e.field == "status" <;>
    cases hs : ss.contains e.toState <;>
      simp [hf, hs] <;> split_ifs <;> rfl

theorem reduce_step_ready (ss es rf : List String) (rt : String)
    (st : ReduceState Nat) (e : ChangeEvent) :
    (reduce_step ss es rf rt st e).ready_for_prod_time =
      if isEndEvent es e && st.ready_for_prod_time.isNone then some e.created
      else st.ready_for_prod_time := by
  unfold reduce_step isEndEvent
  cases hf : e.field == "status" <;>
    cases hs : ss.contains e.toState <;>
      cases he : es.contains e.toState <;>
        simp [hf, hs, he] <;> split_ifs <;> rfl

theorem reduce_step_rework (ss es rf : List String) (rt : String)
    (st : ReduceState Nat) (e : ChangeEvent) :
    (reduce_step ss es rf rt st e).rework_events =
      if isReworkEvent rf rt e then st.rework_events + 1
      else st.rework_events := by
  unfold reduce_step isReworkEvent
  cases hf : e.field == "status" <;>
    cases hr : rf.contains e.fromState && e.toState == rt <;>
      simp [hf, hr] <;> split_ifs <;> rfl

theorem foldl_in_progress_last (ss es rf : List String) (rt : String)
    (evs : List ChangeEvent) : ∀ st : ReduceState Nat,
    (evs.foldl (reduce_step ss es rf rt) st).in_progress_time =
      match (evs.filter (isStartEvent ss)).getLast? with
      | some e => some e.created
      | none => st.in_progress_time := by
  induction evs using List.reverseRecOn with
  | nil => intro st; rfl
  | append_singleton l e ih =>
    intro st
    rw [List.foldl_append, List.foldl_cons, List.foldl_nil,
        reduce_step_in_progress, List.filter_append]
    cases hp : isStartEvent ss e
    · simp only [List.filter_cons, hp, List.filter_nil, List.append_nil,
        Bool.false_eq_true, if_false]
      exact ih st
    · simp only [List.filter_cons, hp, List.filter_nil, if_true]
      rw [List.getLast?_concat]

theorem foldl_ready_stays (ss es rf : List String) (rt : String)
    (evs : List ChangeEvent) : ∀ st : ReduceState Nat,
    st.ready_for_prod_time.isSome →
    (evs.foldl (reduce_step ss es rf rt) st).ready_for_prod_time =
      st.ready_for_prod_time := by
  induction evs with
  | nil => intro st _; rfl
  | cons e l ih =>
    intro st hst
    rw [List.foldl_cons]
    have hstep : (reduce_step ss es rf rt st e).ready_for_prod_time =
        st.ready_for_prod_time := by
      rw [reduce_step_ready]
      have : st.ready_for_prod_time.isNone = false := by
        cases h : st.ready_for_prod_time
        · rw [h] at hst; simp at hst
        · simp [h]
      simp [this]
    rw [ih _ (by rw [hstep]; exact hst), hstep]

theorem foldl_ready_first (ss es rf : List String) (rt : String)
    (evs : List ChangeEvent) : ∀ st : ReduceState Nat,
    st.ready_for_prod_time = none →
    (evs.foldl (reduce_step ss es rf rt) st).ready_for_prod_time =
      ((evs.filter (isEndEvent es)).head?).map (·.created) := by
  induction evs with
  | nil => intro st hst; simpa using hst
  | cons e l ih =>
    intro st hst
    rw [List.foldl_cons, List.filter_cons]
    cases hq : isEndEvent es e
    · simp only [Bool.false_eq_true, if_false]
      have hstep : (reduce_step ss es rf rt st e).ready_for_prod_time = none := by
        rw [reduce_step_ready, hq]; simpa using hst
      exact ih _ hstep
    · simp only [if_true, List.head?_cons]
      have hstep : (reduce_step ss es rf rt st e).ready_for_prod_time =
          some e.created := by
        rw [reduce_step_ready, hq, hst]; rfl
      rw [foldl_ready_stays ss es rf rt l _ (by rw [hstep]; rfl), hstep]
      rfl

theorem foldl_rework_count (ss es rf : List String) (rt : String)
    (evs : List ChangeEvent) : ∀ st : ReduceState Nat,
    (evs.foldl (reduce_step ss es rf rt) st).rework_events =
      st.rework_events + evs.countP (isReworkEvent rf rt) := by
  induction evs with
  | nil => intro st; rfl
  | cons e l ih =>
    intro st
    rw [List.foldl_cons, ih, reduce_step_rework, List.countP_cons]
    cases hr : isReworkEvent rf rt e <;> simp [hr] <;> omega

/-- C1 counterexample: over the chronologically ascending events
New→"In Progress"@1, "In Progress"→TEST@2, TEST→"In Progress"@3 (the
source's own status literals), the reduction yields
`in_progress_time = 3`, the timestamp of the LAST entry into the start
state, whereas the claim's first-entry reading (`spec_startTime`)
yields 1: a later re-entry into a start state does replace the start
time. -/
theorem C1_counterexample :
    (reduce ["In Progress"] ["IN PROGRESS D"] ["TEST", "In Progress C"]
      "In Progress"
      [⟨"status", "New", "In Progress", 1⟩,
       ⟨"status", "In Progress", "TEST", 2⟩,
       ⟨"status", "TEST", "In Progress", 3⟩]).in_progress_time = some 3
    ∧ spec_startTime ["In Progress"]
      [⟨"status", "New", "In Progress", 1⟩,
       ⟨"status", "In Progress", "TEST", 2⟩,
       ⟨"status", "TEST", "In Progress", 3⟩] = some 1
    ∧ (3 : Nat) ≠ 1 :=
  ⟨rfl, rfl, by decide⟩

/-- C1 (amended): for every event sequence and every start-state set,
the reduction's startTime is the timestamp of the LAST event in input
order whose to-state is in the start states — each entry into a start
state overwrites the previous startTime, so later re-entries do replace
it. -/
theorem C1_thm (ss es rf : List String) (rt : String)
    (evs : List ChangeEvent) :
    (reduce ss es rf rt evs).in_progress_time =
      ((evs.filter (isStartEvent ss)).getLast?).map (·.created) := by
  unfold reduce
  rw [foldl_in_progress_last]
  cases h : (evs.filter (isStartEvent ss)).getLast? <;> simp [h]

/-- C2 counterexample: over TEST→"IN PROGRESS D"@1, New→"In Progress"@2
a start event exists (timestamp 2), yet the reduction sets
`ready_for_prod_time = 1` — the end event that precedes every start
event — whereas the claim (`spec_endTime`, searching only after
startTime) leaves endTime unset. -/
theorem C2_counterexample :
    (reduce ["In Progress"] ["IN PROGRESS D"] ["TEST", "In Progress C"]
      "In Progress"
      [⟨"status", "TEST", "IN PROGRESS D", 1⟩,
       ⟨"status", "New", "In Progress", 2⟩]).ready_for_prod_time = some 1
    ∧ spec_startTime ["In Progress"]
      [⟨"status", "TEST", "IN PROGRESS D", 1⟩,
       ⟨"status", "New", "In Progress", 2⟩] = some 2
    ∧ spec_endTime ["In Progress"] ["IN PROGRESS D"]
      [⟨"status", "TEST", "IN PROGRESS D", 1⟩,
       ⟨"status", "New", "In Progress", 2⟩] = none :=
  ⟨rfl, rfl, rfl⟩

/-- C2 (amended): for every event sequence and every end-state set, the
reduction's endTime is the timestamp of the FIRST event in input order
whose to-state is in the end states, independent of the start event:
later re-entries into an end state do not overwrite it, but it is set
even when the end state is reached before any start-state event. -/
theorem C2_thm (ss es rf : List String) (rt : String)
    (evs : List ChangeEvent) :
    (reduce ss es rf rt evs).ready_for_prod_time =
      ((evs.filter (isEndEvent es)).head?).map (·.created) :=
  foldl_ready_first ss es rf rt evs ⟨none, none, 0⟩ rfl

/-- C3 counterexample: the two events New→"In Progress"@1 and
TEST→"In Progress"@2 are a permutation of each other in either order,
yet the reduction returns `in_progress_time = 2` for one order and `1`
for the other: the reducer does not normalize to chronological order,
and its output is not permutation-invariant. -/
theorem C3_counterexample :
    ([⟨"status", "New", "In Progress", 1⟩,
      ⟨"status", "TEST", "In Progress", 2⟩] : List ChangeEvent).Perm
      [⟨"status", "TEST", "In Progress", 2⟩,
       ⟨"status", "New", "In Progress", 1⟩]
    ∧ (reduce ["In Progress"] ["IN PROGRESS D"] ["TEST", "In Progress C"]
        "In Progress"
        [⟨"status", "New", "In Progress", 1⟩,
         ⟨"status", "TEST", "In Progress", 2⟩]).in_progress_time ≠
      (reduce ["In Progress"] ["IN PROGRESS D"] ["TEST", "In Progress C"]
        "In Progress"
        [⟨"status", "TEST", "In Progress", 2⟩,
         ⟨"status", "New", "In Progress", 1⟩]).in_progress_time :=
  ⟨List.Perm.swap (⟨"status", "TEST", "In Progress", 2⟩ : ChangeEvent)
    ⟨"status", "New", "In Progress", 1⟩ [], by decide⟩

/-- C3 (amended): only the rework count of the reduction is invariant
under permutation of the input events; the reducer performs no
chronological normalization, and startTime/endTime depend on input
order. -/
theorem C3_thm (ss es rf : List String) (rt : String)
    (l1 l2 : List ChangeEvent) (h : l1.Perm l2) :
    (reduce ss es rf rt l1).rework_events =
      (reduce ss es rf rt l2).rework_events := by
  unfold reduce
  rw [foldl_rework_count, foldl_rework_count]
  rw [h.countP_eq]

/-- C3 witness: the amended permutation-invariance applied to the
concrete swapped pair of events. -/
theorem C3_witness :
    (reduce ["In Progress"] ["IN PROGRESS D"] ["TEST", "In Progress C"]
      "In Progress"
      [⟨"status", "New", "In Progress", 1⟩,
       ⟨"status", "TEST", "In Progress", 2⟩]).rework_events =
    (reduce ["In Progress"] ["IN PROGRESS D"] ["TEST", "In Progress C"]
      "In Progress"
      [⟨"status", "TEST", "In Progress", 2⟩,
       ⟨"status", "New", "In Progress", 1⟩]).rework_events :=
  C3_thm ["In Progress"] ["IN PROGRESS D"] ["TEST", "In Progress C"]
    "In Progress" _ _
    (List.Perm.swap (⟨"status", "TEST", "In Progress", 2⟩ : ChangeEvent)
      ⟨"status", "New", "In Progress", 1⟩ [])

/-- C8: the reduction's rework count equals, for every event sequence,
the number of status events whose from-state is in the rework-from set
and whose to-state equals the rework-to state, counted across the whole
history and not bounded by the startTime/endTime window; on the claim's
four-event example with rework-from {Test} and rework-to InProgress it
equals 1, and being a natural number it is never negative. -/
theorem C8_thm :
    (∀ (ss es rf : List String) (rt : String) (evs : List ChangeEvent),
      (reduce ss es rf rt evs).rework_events =
        evs.countP (isReworkEvent rf rt))
    ∧ (reduce ["InProgress"] [] ["Test"] "InProgress"
        [⟨"status", "New", "InProgress", 1⟩,
         ⟨"status", "InProgress", "Test", 2⟩,
         ⟨"status", "Test", "InProgress", 3⟩,
         ⟨"status", "InProgress", "Done", 4⟩]).rework_events = 1
    ∧ ∀ (ss es rf : List String) (rt : String) (evs : List ChangeEvent),
        0 ≤ (reduce ss es rf rt evs).rework_events :=
  ⟨fun ss es rf rt evs => by
    unfold reduce
    rw [foldl_rework_count]
    simp,
   rfl, fun _ _ _ _ _ => Nat.zero_le _⟩

/-- A parsed timezone-aware timestamp as produced by `parse_jira_date`:
the components matched by the strptime layouts
`%Y-%m-%dT%H:%M:%S.%f%z` and `%Y-%m-%dT%H:%M:%S%z`. -/
structure JDateTime where
  year : Nat
  month : Nat
  day : Nat
  hour : Nat
  minute : Nat
  second : Nat
  microsecond : Nat
  tzMinus : Bool
  tzHH : Nat
  tzMM : Nat
deriving DecidableEq

/-- Value of a decimal digit character, `none` on a non-digit. -/
def digitVal (c : Char) : Option Nat :=
  if c.isDigit then some (c.toNat - 48) else none

/-- Reads exactly `n` decimal digits, accumulating their value. -/
def readFixedDigits : Nat → Nat → List Char → Option (Nat × List Char)
  | 0, acc, cs => some (acc, cs)
  | n + 1, acc, c :: cs =>
    match digitVal c with
    | some d => readFixedDigits n (acc * 10 + d) cs
    | none => none
  | _ + 1, _, [] => none

/-- Consumes one expected literal character. -/
def expectChar (c : Char) : List Char → Option (List Char)
  | d :: cs => if d == c then some cs else none
  | [] => none

/-- Greedily reads decimal digits, returning their value, their count
and the rest of the input (for the `%f` directive). -/
def readFracDigits : List Char → Nat → Nat → Nat × Nat × List Char
  | c :: cs, acc, cnt =>
    match digitVal c with
    | some d => readFracDigits cs (acc * 10 + d) (cnt + 1)
    | none => (acc, cnt, c :: cs)
  | [], acc, cnt => (acc, cnt, [])

/-- Pads a 1-6 digit fraction to microseconds as `%f` does. -/
def fracToMicro (v cnt : Nat) : Nat := v * 10 ^ (6 - cnt)

/-- Models the shared `%Y-%m-%dT%H:%M:%S` prefix of both strptime
layouts used by `parse_jira_date`, with strptime's field-range
validation. -/
def readDateTimeCore (cs : List Char) : Option (JDateTime × List Char) := do
  let (y, cs) ← readFixedDigits 4 0 cs
  let cs ← expectChar '-' cs
  let (mo, cs) ← readFixedDigits 2 0 cs
  let cs ← expectChar '-' cs
  let (d, cs) ← readFixedDigits 2 0 cs
  let cs ← expectChar 'T' cs
  let (h, cs) ← readFixedDigits 2 0 cs
  let cs ← expectChar ':' cs
  let (mi, cs) ← readFixedDigits 2 0 cs
  let cs ← expectChar ':' cs
  let (sec, cs) ← readFixedDigits 2 0 cs
  if 1 ≤ mo ∧ mo ≤ 12 ∧ 1 ≤ d ∧ d ≤ 31 ∧ h ≤ 23 ∧ mi ≤ 59 ∧ sec ≤ 61 then
    some (⟨y, mo, d, h, mi, sec, 0, false, 0, 0⟩, cs)
  else none

/-- Models the `%z` directive for the offset form the tracker emits:
a sign followed by four digits `HHMM`. -/
def readTZ (cs : List Char) : Option ((Bool × Nat × Nat) × List Char) :=
  match cs with
  | c :: rest => do
    let sign ← if c == '+' then some false
               else if c == '-' then some true else none
    let (hh, rest) ← readFixedDigits 2 0 rest
    let (mm, rest) ← readFixedDigits 2 0 rest
    if mm ≤ 59 then some ((sign, hh, mm), rest) else none
  | [] => none

/-- Models `datetime.strptime(s, '%Y-%m-%dT%H:%M:%S%z')`: the layout
without fractional seconds, consuming the whole string. -/
def strptime_no_frac (s : String) : Option JDateTime :=
  match readDateTimeCore s.data with
  | some (dt, cs) =>
    match readTZ cs with
    | some ((sg, hh, mm), []) => some { dt with tzMinus := sg, tzHH := hh, tzMM := mm }
    | _ => none
  | none => none

/-- Models `datetime.strptime(s, '%Y-%m-%dT%H:%M:%S.%f%z')`: the layout
with a dot and 1-6 fractional-second digits, consuming the whole
string. -/
def strptime_frac (s : String) : Option JDateTime :=
  match readDateTimeCore s.data with
  | some (dt, cs) =>
    match expectChar '.' cs with
    | some cs2 =>
      let (fv, cnt, cs3) := readFracDigits cs2 0 0
      if 1 ≤ cnt ∧ cnt ≤ 6 then
        match readTZ cs3 with
        | some ((sg, hh, mm), []) =>
          some { dt with microsecond := fracToMicro fv cnt,
                         tzMinus := sg, tzHH := hh, tzMM := mm }
        | _ => none
      else none
    | none => none
  | none => none

/-- `parse_jira_date` (source lines 52-56): try the fractional layout,
and on its `ValueError` try the layout without fraction; a failure of
the second attempt propagates to the caller (modelled as
`Except.error` carrying the offending string). -/
def parse_jira_date (s : String) : Except String JDateTime :=
  match strptime_frac s with
  | some dt => Except.ok dt
  | none =>
    match strptime_no_frac s with
    | some dt => Except.ok dt
    | none => Except.error s

/-- A status change item whose `created` timestamp is still the raw
string handed to `parse_jira_date` inside the reduction loop. -/
structure RawEvent where
  field : String
  fromState : String
  toState : String
  created : String
deriving DecidableEq

/-- The reduction step of source lines 219-226 over raw events:
`parse_jira_date` is called exactly in the branches that consume the
timestamp, and its `ValueError` propagates out of the loop (`Except`
bind). -/
def reduce_raw_step (ss es rf : List String) (rt : String)
    (st : ReduceState JDateTime) (e : RawEvent) :
    Except String (ReduceState JDateTime) :=
  if e.field == "status" then do
    let st1 ← if ss.contains e.toState then
        (parse_jira_date e.created).map
          (fun t => { st with in_progress_time := some t })
      else pure st
    let st2 ← if es.contains e.toState && st1.ready_for_prod_time.isNone then
        (parse_jira_date e.created).map
          (fun t => { st1 with ready_for_prod_time := some t })
      else pure st1
    pure (if rf.contains e.fromState && e.toState == rt then
      { st2 with rework_events := st2.rework_events + 1 } else st2)
  else pure st

/-- The per-issue reduction over raw events; a parse failure anywhere
aborts the issue's reduction. -/
def reduce_raw (ss es rf : List String) (rt : String) :
    List RawEvent → ReduceState JDateTime →
    Except String (ReduceState JDateTime)
  | [], st => Except.ok st
  | e :: rest, st =>
    match reduce_raw_step ss es rf rt st e with
    | Except.error m => Except.error m
    | Except.ok st1 => reduce_raw ss es rf rt rest st1

/-- The developer-metrics instantiation of the raw reduction, with the
status literals of source lines 221-225. -/
def reduce_raw_dev (evs : List RawEvent) : Except String (ReduceState JDateTime) :=
  reduce_raw ["In Progress"] ["IN PROGRESS D"] ["TEST", "In Progress C"]
    "In Progress" evs ⟨none, none, 0⟩

/-- The `for issue in recent_issues` loop of source lines 215-233 as it
sits inside the cycle's single `try`: issues are reduced in order and
any exception — in particular a `ValueError` from `parse_jira_date` —
propagates, abandoning the remaining issues of the cycle. -/
def collect_recent_issues : List (List RawEvent) →
    Except String (List (ReduceState JDateTime))
  | [] => Except.ok []
  | i :: rest =>
    match reduce_raw_dev i with
    | Except.error m => Except.error m
    | Except.ok r =>
      match collect_recent_issues rest with
      | Except.error m => Except.error m
      | Except.ok rs => Except.ok (r :: rs)

/-- C6 counterexample: a cycle whose recent-issues list holds first an
issue with a malformed start-event timestamp and then a well-formed
issue aborts with the parse error — the well-formed record is NOT
processed — although the well-formed issue alone reduces fine: a
malformed timestamp does not merely skip its own record. -/
theorem C6_counterexample :
    collect_recent_issues
      [[⟨"status", "New", "In Progress", "garbage"⟩],
       [⟨"status", "New", "In Progress", "2024-01-02T03:04:05+0000"⟩]] =
      Except.error "garbage"
    ∧ collect_recent_issues
      [[⟨"status", "New", "In Progress", "2024-01-02T03:04:05+0000"⟩]] =
      Except.ok [⟨some ⟨2024, 1, 2, 3, 4, 5, 0, false, 0, 0⟩, none, 0⟩] :=
  ⟨rfl, rfl⟩

/-- C6 (amended): timestamp parsing succeeds on exactly the two
strptime layouts — the fractional one being tried first — and fails
when neither matches; but a malformed timestamp on one record is not a
local skip: the `ValueError` propagates out of the issue loop, so the
whole recent-issues collection of that cycle errors and the remaining
records are not processed (the error is then logged at cycle level,
not as a per-record warning). -/
theorem C6_thm :
    (∀ s : String, (parse_jira_date s).isOk =
      ((strptime_frac s).isSome || (strptime_no_frac s).isSome))
    ∧ (∀ (s : String) (dt : JDateTime),
        strptime_frac s = some dt → parse_jira_date s = Except.ok dt)
    ∧ (∀ issues : List (List RawEvent),
        (∃ i ∈ issues, ∃ m, reduce_raw_dev i = Except.error m) →
        (collect_recent_issues issues).isOk = false) := by
  refine ⟨?_, ?_, ?_⟩
  · intro s
    unfold parse_jira_date
    cases h1 : strptime_frac s <;> cases h2 : strptime_no_frac s <;>
      simp [h1, h2, Except.isOk, Except.toBool]
  · intro s dt h
    unfold parse_jira_date
    rw [h]
  · intro issues
    induction issues with
    | nil => intro h; obtain ⟨i, hi, _⟩ := h; simp at hi
    | cons a rest ih =>
      intro h
      obtain ⟨i, hi, m, hm⟩ := h
      cases him : reduce_raw_dev a with
      | error m2 => simp [collect_recent_issues, him, Except.isOk, Except.toBool]
      | ok r =>
        rcases List.mem_cons.mp hi with rfl | hrest
        · rw [him] at hm; cases hm
        · have hr : (collect_recent_issues rest).isOk = false :=
            ih ⟨i, hrest, m, hm⟩
          cases hc : collect_recent_issues rest with
          | error m3 =>
            simp [collect_recent_issues, him, hc, Except.isOk, Except.toBool]
          | ok rs => rw [hc] at hr; simp [Except.isOk, Except.toBool] at hr

/-- C6 witness: the abort behaviour applied to the one-issue list whose
only event carries a malformed timestamp. -/
theorem C6_witness :
    (collect_recent_issues
      [[⟨"status", "New", "In Progress", "garbage"⟩]]).isOk = false :=
  C6_thm.2.2 [[⟨"status", "New", "In Progress", "garbage"⟩]]
    ⟨[⟨"status", "New", "In Progress", "garbage"⟩],
     List.mem_cons_self _ _, "garbage", rfl⟩

/-- A timezone-aware instant as consumed by `business_hours_between`:
`day` is the ordinal calendar day (`.date()`), counted with day 0 a
Monday so that Python's `weekday() < 5` is `day % 7 < 5`; `secOfDay`
is the time of day, which the function discards. -/
structure Instant where
  day : Nat
  secOfDay : Nat
deriving DecidableEq

/-- `business_hours_between` (source lines 48-50): count the calendar
days `i` in `range((end.date() - start.date()).days + 1)` whose weekday
`(start.date() + timedelta(days=i)).weekday()` is below 5, and return
`days * 8`.  Python's empty range for a negative length is mirrored by
`Int.toNat`. -/
def business_hours_between (start_dt end_dt : Instant) : Nat :=
  ((List.range (((end_dt.day : Int) - (start_dt.day : Int) + 1).toNat)).countP
    (fun i => decide ((start_dt.day + i) % 7 < 5))) * 8

theorem countP_range_weekdays (s : Nat) : ∀ n : Nat,
    (List.range (n + 1)).countP (fun i => decide ((s + i) % 7 < 5)) =
      ((Finset.Icc s (s + n)).filter (fun d => d % 7 < 5)).card := by
  intro n
  induction n with
  | zero =>
    rw [List.range_succ]
    simp only [List.range_zero, List.nil_append, List.countP_cons,
      List.countP_nil, Nat.add_zero, Finset.Icc_self, Finset.filter_singleton]
    by_cases h : s % 7 < 5 <;> simp [h]
  | succ n ih =>
    rw [List.range_succ, List.countP_append, ih]
    have hins : Finset.Icc s (s + (n + 1)) =
        insert (s + (n + 1)) (Finset.Icc s (s + n)) := by
      have h1 : s + (n + 1) = (s + n) + 1 := by omega
      rw [h1, ← Nat.Icc_insert_succ_right (by omega)]
    have hnot : (s + (n + 1)) ∉
        (Finset.Icc s (s + n)).filter (fun d => d % 7 < 5) := by
      intro hmem
      have := Finset.mem_Icc.mp (Finset.mem_of_mem_filter _ hmem)
      omega
    rw [hins, Finset.filter_insert]
    by_cases h : (s + (n + 1)) % 7 < 5
    · rw [if_pos h, Finset.card_insert_of_not_mem hnot]
      simp [h]
    · rw [if_neg h]
      simp [h]

/-- C7: for every pair of instants with start ≤ end (ordered by day,
then second-of-day), `business_hours_between` returns 8 times the
number of Monday-through-Friday calendar days from `start.date()` to
`end.date()` inclusive; a same-day weekday span returns 8 and a
Friday-to-Monday span counts exactly the two weekdays in range. -/
theorem C7_thm :
    (∀ s e : Instant,
      (s.day < e.day ∨ (s.day = e.day ∧ s.secOfDay ≤ e.secOfDay)) →
      business_hours_between s e =
        8 * ((Finset.Icc s.day e.day).filter (fun d => d % 7 < 5)).card)
    ∧ business_hours_between ⟨2, 0⟩ ⟨2, 3600⟩ = 8
    ∧ business_hours_between ⟨4, 0⟩ ⟨7, 0⟩ = 16
    ∧ ((Finset.Icc 4 7).filter (fun d => d % 7 < 5)).card = 2 := by
  refine ⟨?_, by decide, by decide, by decide⟩
  intro s e h
  have hd : s.day ≤ e.day := by omega
  unfold business_hours_between
  have hspan : (((e.day : Int) - (s.day : Int) + 1)).toNat =
      (e.day - s.day) + 1 := by omega
  rw [hspan, countP_range_weekdays s.day (e.day - s.day)]
  have h2 : s.day + (e.day - s.day) = e.day := by omega
  rw [h2, Nat.mul_comm]

/-- C7 witness: the general business-hours identity applied to the
concrete span from day 0 (a Monday) to day 4 (the following Friday). -/
theorem C7_witness :
    business_hours_between ⟨0, 0⟩ ⟨4, 0⟩ =
      8 * ((Finset.Icc 0 4).filter (fun d => d % 7 < 5)).card :=
  C7_thm.1 ⟨0, 0⟩ ⟨4, 0⟩ (Or.inl (by decide))

/-- `dict.get` on the `ALERTED_TICKETS["new_comment"]` mapping:
first-match lookup in an insertion-ordered association list, `None`
when the key is absent. -/
def dictGet : List (String × String) → String → Option String
  | [], _ => none
  | p :: rest, k => if p.1 == k then some p.2 else dictGet rest k

/-- `dict[key] = value`: replace the value of an existing key in place,
append the pair otherwise. -/
def dictSet : List (String × String) → String → String → List (String × String)
  | [], k, v => [(k, v)]
  | p :: rest, k, v =>
    if p.1 == k then (k, v) :: rest else p :: dictSet rest k v

/-- One evaluation of the most recent comment of a critical ticket:
ticket key, comment id and author account id, as consulted at source
lines 283-285. -/
structure CommentEval where
  ticket : String
  commentId : String
  authorId : String
deriving DecidableEq

/-- One pass of the new-external-comment alert for one ticket (source
lines 284-293): fire — and record the comment id — exactly when the
author is not internal and the stored last-alerted id for the ticket
differs (`dict.get(...) != id`, with an absent key reading as `None`);
otherwise leave the state alone.  Returns the new dedup state and
whether `send_alert` was called. -/
def alert_step (internal : List String) (st : List (String × String))
    (ev : CommentEval) : List (String × String) × Bool :=
  if !(internal.contains ev.authorId)
      && (dictGet st ev.ticket != some ev.commentId) then
    (dictSet st ev.ticket ev.commentId, true)
  else (st, false)

/-- A sequence of comment evaluations against the process-lifetime
dedup state, returning the final state and the evaluations that fired
an alert, in order. -/
def run_comment_alerts (internal : List String) :
    List (String × String) → List CommentEval →
    List (String × String) × List CommentEval
  | st, [] => (st, [])
  | st, ev :: rest =>
    let out := alert_step internal st ev
    let next := run_comment_alerts internal out.1 rest
    (next.1, if out.2 then ev :: next.2 else next.2)

theorem dictGet_dictSet_self (st : List (String × String)) (k v : String) :
    dictGet (dictSet st k v) k = some v := by
  induction st with
  | nil => simp [dictGet, dictSet]
  | cons p rest ih =>
    by_cases h : p.1 = k
    · simp [dictGet, dictSet, h]
    · have hb : (p.1 == k) = false := by simp [h]
      simp [dictGet, dictSet, hb, ih]

/-- C4 counterexample: with no internal users, evaluating the pairs
(T1,C1), (T1,C2), (T1,C1) in successive cycles fires three alerts, so
the pair (T1,C1) fires twice over the process lifetime: the dedup
state only remembers the LAST alerted comment id per ticket. -/
theorem C4_counterexample :
    (run_comment_alerts [] []
      [⟨"T1", "C1", "ext"⟩, ⟨"T1", "C2", "ext"⟩,
       ⟨"T1", "C1", "ext"⟩]).2.countP
      (fun e => e.ticket == "T1" && e.commentId == "C1") = 2 := by
  decide

/-- C4 (amended): the new-external-comment alert for a (ticket, comment
id) pair is suppressed exactly while that id is the last-alerted id
recorded for the ticket: a step fires iff the author is external and
the stored id differs; immediately re-evaluating the pair that just
fired sends nothing, and a different external comment id on the same
ticket fires exactly one more — but the same pair can fire again after
another id has been alerted for the ticket in between. -/
theorem C4_thm :
    (∀ (internal : List String) (st : List (String × String))
        (ev : CommentEval),
      (alert_step internal st ev).2 =
        (!(internal.contains ev.authorId)
          && (dictGet st ev.ticket != some ev.commentId)))
    ∧ (∀ (internal : List String) (st : List (String × String))
        (ev : CommentEval),
      (alert_step internal st ev).2 = true →
      (alert_step internal (alert_step internal st ev).1 ev).2 = false)
    ∧ (∀ (internal : List String) (st : List (String × String))
        (ev ev' : CommentEval),
      (alert_step internal st ev).2 = true →
      ev'.ticket = ev.ticket → ev'.commentId ≠ ev.commentId →
      internal.contains ev'.authorId = false →
      (alert_step internal (alert_step internal st ev).1 ev').2 = true) := by
  refine ⟨?_, ?_, ?_⟩
  · intro internal st ev
    unfold alert_step
    by_cases h : (!(internal.contains ev.authorId)
        && (dictGet st ev.ticket != some ev.commentId)) = true
    · rw [if_pos h, h]
    · rw [if_neg h]
      simp only []
      exact (Bool.not_eq_true _).mp h ▸ rfl
  · intro internal st ev hf
    unfold alert_step at hf ⊢
    by_cases h : (!(internal.contains ev.authorId)
        && (dictGet st ev.ticket != some ev.commentId)) = true
    · rw [if_pos h]
      simp only []
      rw [dictGet_dictSet_self]
      simp
    · rw [if_neg h] at hf
      simp at hf
  · intro internal st ev ev' hf ht hc hint
    unfold alert_step at hf ⊢
    by_cases h : (!(internal.contains ev.authorId)
        && (dictGet st ev.ticket != some ev.commentId)) = true
    · rw [if_pos h]
      simp only []
      rw [ht, dictGet_dictSet_self]
      have h1 : ev'.authorId ∉ internal := by simpa using hint
      have h2 : ¬ev.commentId = ev'.commentId := fun hh => hc hh.symm
      simp [h1, h2]
    · rw [if_neg h] at hf
      simp at hf

/-- C4 witness: the fire-then-suppress behaviour applied to the
concrete pair (T1,C1) with an external author and empty state, and the
fire-again behaviour for the distinct id C2. -/
theorem C4_witness :
    ((alert_step [] (alert_step [] [] ⟨"T1", "C1", "ext"⟩).1
        ⟨"T1", "C1", "ext"⟩).2 = false)
    ∧ ((alert_step [] (alert_step [] [] ⟨"T1", "C1", "ext"⟩).1
        ⟨"T1", "C2", "ext"⟩).2 = true) :=
  ⟨C4_thm.2.1 [] [] ⟨"T1", "C1", "ext"⟩ (by decide),
   C4_thm.2.2 [] [] ⟨"T1", "C1", "ext"⟩ ⟨"T1", "C2", "ext"⟩
     (by decide) rfl (by decide) (by decide)⟩

/-- Observable outcome of one metrics cycle: which named query
categories ran to completion, whether the snapshot reached the
publish call, and whether the cycle-level `except` logged an error. -/
structure CycleOutcome where
  collected : List String
  published : Bool
  error_logged : Bool
deriving DecidableEq

/-- Walks the cycle's categories in source order inside the single
`try` of source lines 179-300, accumulating the names already
collected. -/
def run_cycle_aux : List (String × Except String Unit) → List String →
    CycleOutcome
  | [], acc => ⟨acc.reverse, true, false⟩
  | (name, Except.ok _) :: rest, acc => run_cycle_aux rest (name :: acc)
  | (_, Except.error _) :: _, acc => ⟨acc.reverse, false, true⟩

/-- One metrics cycle (source lines 179-300): the developer, QA and
alert categories and the final Grafana publish all sit in ONE `try`;
the first raising category jumps to the single `except`, which logs
the error, and the publish call — last in the `try` — is reached only
when every category succeeded. -/
def run_cycle (cats : List (String × Except String Unit)) : CycleOutcome :=
  run_cycle_aux cats []

/-- The `while True` driver (source lines 136-303): each cycle's
`try/except` confines its failure, so every scheduled cycle runs. -/
def run_loop (cycles : List (List (String × Except String Unit))) :
    List CycleOutcome :=
  cycles.map run_cycle

/-- C5 counterexample: when the developer-metrics query of a cycle
raises and the QA and alert categories would have succeeded, the cycle
collects NOTHING further and never publishes: the remaining categories
are aborted and no partial snapshot is sent, contrary to the claim. -/
theorem C5_counterexample :
    run_cycle
      [("developer_metrics", Except.error "ConnectionError"),
       ("qa_metrics", Except.ok ()),
       ("alerts", Except.ok ())] =
      ⟨[], false, true⟩
    ∧ run_cycle [("qa_metrics", Except.ok ()), ("alerts", Except.ok ())] =
      ⟨["qa_metrics", "alerts"], true, false⟩ :=
  ⟨rfl, rfl⟩

theorem run_cycle_aux_error (name msg : String)
    (rest : List (String × Except String Unit)) :
    ∀ (pre : List (String × Except String Unit)) (acc : List String),
    (∀ x ∈ pre, x.2 = Except.ok ()) →
    run_cycle_aux (pre ++ (name, Except.error msg) :: rest) acc =
      ⟨acc.reverse ++ pre.map (·.1), false, true⟩ := by
  intro pre
  induction pre with
  | nil => intro acc _; simp [run_cycle_aux]
  | cons x pre ih =>
    intro acc hok
    obtain ⟨n, r⟩ := x
    have hx : r = Except.ok () := hok (n, r) (List.mem_cons_self _ _)
    subst hx
    rw [List.cons_append]
    show run_cycle_aux ((n, Except.ok ()) :: _) acc = _
    rw [show run_cycle_aux ((n, Except.ok ()) ::
        (pre ++ (name, Except.error msg) :: rest)) acc =
        run_cycle_aux (pre ++ (name, Except.error msg) :: rest)
          (n :: acc) from rfl]
    rw [ih (n :: acc) (fun y hy => hok y (List.mem_cons_of_mem _ hy))]
    simp

/-- C5 (amended): a tracker query failure in one category is caught
and logged, but at the level of the WHOLE cycle: the categories after
the failing one are not collected and no snapshot — partial or
otherwise — is published for that cycle; only the loop itself is
protected, every scheduled cycle still running. -/
theorem C5_thm :
    (∀ (pre rest : List (String × Except String Unit)) (name msg : String),
      (∀ x ∈ pre, x.2 = Except.ok ()) →
      run_cycle (pre ++ (name, Except.error msg) :: rest) =
        ⟨pre.map (·.1), false, true⟩)
    ∧ (∀ cycles : List (List (String × Except String Unit)),
        (run_loop cycles).length = cycles.length) := by
  constructor
  · intro pre rest name msg hok
    unfold run_cycle
    rw [run_cycle_aux_error name msg rest pre [] hok]
    simp
  · intro cycles
    simp [run_loop]

/-- C5 witness: the cycle-abort identity applied to a concrete cycle
whose second category raises. -/
theorem C5_witness :
    run_cycle
      [("developer_metrics", Except.ok ()),
       ("qa_metrics", Except.error "timeout"),
       ("alerts", Except.ok ())] =
      ⟨["developer_metrics"], false, true⟩ :=
  C5_thm.1 [("developer_metrics", Except.ok ())]
    [("alerts", Except.ok ())] "qa_metrics" "timeout"
    (by intro x hx; simp at hx; rw [hx])

/-- Outcome of the HTTP POST inside `send_alert`: either a response
with a status code, or a raised `requests.exceptions.RequestException`
(connection errors and the like).  `raise_for_status()` turns an
error status into an `HTTPError`, itself a `RequestException`. -/
inductive PostOutcome where
  | success (status : Nat)
  | requestException (msg : String)
deriving DecidableEq

/-- What `send_alert` observably did: whether a POST was attempted,
and whether the success info or the error was logged. -/
structure SendResult where
  postAttempted : Bool
  infoLogged : Bool
  errorLogged : Bool
deriving DecidableEq

/-- Python falsiness of the `GMAIL_CHAT_WEBHOOK` value: unset
(`None`) or the empty string. -/
def webhookFalsy : Option String → Bool
  | none => true
  | some s => s == ""

/-- `send_alert` (source lines 58-64): return at once when the webhook
is falsy; otherwise POST, `raise_for_status()`, and catch any
`RequestException`, logging success or error.  Total by construction:
every path returns a `SendResult`, no exception escapes. -/
def send_alert (webhook : Option String) (outcome : PostOutcome)
    (_message : String) : SendResult :=
  if webhookFalsy webhook then ⟨false, false, false⟩
  else
    match outcome with
    | PostOutcome.success status =>
      if 400 ≤ status then ⟨true, false, true⟩
      else ⟨true, true, false⟩
    | PostOutcome.requestException _ => ⟨true, false, true⟩

/-- C9: `send_alert` never propagates an exception — it is a total
function into `SendResult` — and concretely: an unconfigured (falsy)
webhook returns immediately with no POST attempted; a raised
`RequestException` is caught and logged; an error status from
`raise_for_status()` is likewise caught and logged; a success status
logs the success message.  The `message` argument never affects
control flow. -/
theorem C9_thm :
    (∀ (w : Option String) (o : PostOutcome) (m : String),
      webhookFalsy w = true → send_alert w o m = ⟨false, false, false⟩)
    ∧ (∀ (w : Option String) (m msg : String),
      webhookFalsy w = false →
      send_alert w (PostOutcome.requestException msg) m = ⟨true, false, true⟩)
    ∧ (∀ (w : Option String) (m : String) (status : Nat),
      webhookFalsy w = false → 400 ≤ status →
      send_alert w (PostOutcome.success status) m = ⟨true, false, true⟩)
    ∧ (∀ (w : Option String) (m : String) (status : Nat),
      webhookFalsy w = false → status < 400 →
      send_alert w (PostOutcome.success status) m = ⟨true, true, false⟩) := by
  refine ⟨?_, ?_, ?_, ?_⟩
  · intro w o m h
    simp [send_alert, h]
  · intro w m msg h
    simp [send_alert, h]
  · intro w m status h hs
    simp [send_alert, h, hs]
  · intro w m status h hs
    simp [send_alert, h, Nat.not_le.mpr hs]

/-- C9 witness: the no-POST, caught-exception and error-status
behaviours applied to concrete inputs. -/
theorem C9_witness :
    send_alert none (PostOutcome.requestException "refused") "hi" =
      ⟨false, false, false⟩
    ∧ send_alert (some "https://chat.example") (PostOutcome.requestException
        "refused") "hi" = ⟨true, false, true⟩
    ∧ send_alert (some "https://chat.example") (PostOutcome.success 500)
        "hi" = ⟨true, false, true⟩ :=
  ⟨C9_thm.1 none (PostOutcome.requestException "refused") "hi" rfl,
   C9_thm.2.1 (some "https://chat.example") "hi" "refused" (by decide),
   C9_thm.2.2.1 (some "https://chat.example") "hi" 500 (by decide)
     (by decide)⟩

/-- `build_user_map_once` (source lines 66-86): each configured display
name either resolves — via `search_users` — to an `(accountId,
displayName)` pair or does not (no match found, or the lookup raised
and was caught); a resolved name appends its pair to the map, an
unresolved one is logged and simply contributes nothing. -/
def build_user_map_once
    (entries : List (String × Option (String × String))) :
    List (String × String) :=
  entries.foldl
    (fun m e => match e.2 with
      | some u => m ++ [u]
      | none => m) []

/-- What the `__main__` block does after the three maps are built
(source lines 338-342): `exit(1)` when the summed map sizes are zero,
start the metrics thread otherwise. -/
inductive StartupAction where
  | exitOne
  | startLoop
deriving DecidableEq

/-- The startup user-count check: `total_users = len(DEVELOPER_MAP) +
len(QA_MAP) + len(PM_MAP); if total_users == 0: exit(1)`, evaluated
before the metrics thread is started. -/
def startup_check (devMap qaMap pmMap : List (String × String)) :
    StartupAction :=
  if devMap.length + qaMap.length + pmMap.length == 0 then
    StartupAction.exitOne
  else StartupAction.startLoop

theorem build_user_map_once_aux
    (entries : List (String × Option (String × String))) :
    ∀ acc : List (String × String),
    entries.foldl
      (fun m e => match e.2 with
        | some u => m ++ [u]
        | none => m) acc = acc ++ entries.filterMap (·.2) := by
  induction entries with
  | nil => intro acc; simp
  | cons e rest ih =>
    intro acc
    rw [List.foldl_cons, List.filterMap_cons]
    cases h : e.2 with
    | none => simp only [h]; rw [ih]
    | some u => simp only [h]; rw [ih]; simp

/-- C10: the process exits with code 1 before the metrics loop starts
exactly when all three account maps are empty — the summed length test
of the `__main__` block — while `build_user_map_once` keeps exactly the
resolved names, an individually unresolved name being tolerated as an
absent entry rather than an error. -/
theorem C10_thm :
    (∀ devMap qaMap pmMap : List (String × String),
      startup_check devMap qaMap pmMap = StartupAction.exitOne ↔
        (devMap = [] ∧ qaMap = [] ∧ pmMap = []))
    ∧ (∀ entries : List (String × Option (String × String)),
        build_user_map_once entries = entries.filterMap (·.2))
    ∧ build_user_map_once
        [("Alice", some ("acc-1", "Alice")), ("Bob", none),
         ("Carol", some ("acc-3", "Carol"))] =
        [("acc-1", "Alice"), ("acc-3", "Carol")] := by
  refine ⟨?_, ?_, rfl⟩
  · intro devMap qaMap pmMap
    unfold startup_check
    by_cases h : devMap.length + qaMap.length + pmMap.length = 0
    · simp only [h]
      constructor
      · intro _
        refine ⟨?_, ?_, ?_⟩ <;> [skip; skip; skip] <;>
          apply List.eq_nil_of_length_eq_zero <;> omega
      · intro _; rfl
    · have hb : (devMap.length + qaMap.length + pmMap.length == 0) = false :=
        by simpa using h
      rw [hb]
      simp only [Bool.false_eq_true, if_false]
      constructor
      · intro hcontra; cases hcontra
      · rintro ⟨h1, h2, h3⟩
        subst h1; subst h2; subst h3
        simp at h
  · intro entries
    unfold build_user_map_once
    rw [build_user_map_once_aux]
    simp

/-- C10 witness: the exit-iff-all-empty equivalence applied to three
empty maps, and to a state where one map is non-empty. -/
theorem C10_witness :
    startup_check [] [] [] = StartupAction.exitOne
    ∧ startup_check [("acc-1", "Alice")] [] [] ≠ StartupAction.exitOne :=
  ⟨(C10_thm.1 [] [] []).mpr ⟨rfl, rfl, rfl⟩,
   fun h => by
     have := (C10_thm.1 [("acc-1", "Alice")] [] []).mp h
     exact absurd this.1 (by simp)⟩
